import Mathlib

/-!
Shallow embedding of the `uuid` package codec and bit-layout subsystem
(`codec.go` and the main package file). A Go `UUID` is a `[16]byte` array,
modelled here as a `List Nat` whose entries are byte values (`< 256`);
Go `[]byte` text is likewise a `List Nat`. Each Go error value is one
constructor carrying exactly the data interpolated into its format string.
Decoders that mutate a receiver are modelled by returning the final
contents of the receiver buffer together with the optional error.
-/

namespace UUIDModel

/-- Size of a UUID in bytes (Go `const Size = 16`). -/
def Size : Nat := 16

/-- Go `VariantNCS` (= 0). -/
def VariantNCS : Nat := 0

/-- Go `VariantRFC4122` (= 1). -/
def VariantRFC4122 : Nat := 1

/-- Go `VariantMicrosoft` (= 2). -/
def VariantMicrosoft : Nat := 2

/-- Go `VariantFuture` (= 3). -/
def VariantFuture : Nat := 3

/-- The nil UUID, all 16 bytes zero (Go `var Nil = UUID{}`). -/
def Nil : List Nat := List.replicate 16 0

/-- Decode errors. Each constructor corresponds to one Go error and carries
exactly the values interpolated into its message. -/
inductive DecodeError
  /-- Go `fmt.Errorf("uuid: incorrect UUID format in string %q", s)`. -/
  | incorrectFormat (s : List Nat)
  /-- Go `errInvalidFormat = errors.New("invalid UUID format")`. -/
  | invalidFormat
  /-- Go `fmt.Errorf("uuid: incorrect UUID length %d in string %q", n, s)`. -/
  | incorrectLength (n : Nat) (s : List Nat)
  /-- Go `fmt.Errorf("uuid: UUID must be exactly 16 bytes long, got %d bytes", n)`
  from `UnmarshalBinary`; note it carries only the length. -/
  | binaryLengthMismatch (n : Nat)
deriving DecidableEq, Repr

/-- Go `fromHexChar`: hex value of one text byte; `none` is the `ok = false`
return. Accepts `0`-`9` (48-57), `a`-`f` (97-102), `A`-`F` (65-70). -/
def fromHexChar (c : Nat) : Option Nat :=
  if 48 ≤ c ∧ c ≤ 57 then some (c - 48)
  else if 97 ≤ c ∧ c ≤ 102 then some (c - 97 + 10)
  else if 65 ≤ c ∧ c ≤ 70 then some (c - 65 + 10)
  else none

/-- The hex-pair loop shared by `decodeCanonical` and `decodeHashLike`. For
each pair `(i, x)` it decodes the text bytes at offsets `x` and `x + 1` and
stores `(a <<< 4) ||| b` into output position `i`; the first invalid pair
aborts, keeping the writes already made, exactly as the Go loops write
directly into the receiver array before discovering a bad digit. -/
def decodeLoop (t : List Nat) : List (Nat × Nat) → List Nat → List Nat × Option DecodeError
  | [], u => (u, none)
  | (i, x) :: rest, u =>
    match fromHexChar (t.getD x 0), fromHexChar (t.getD (x + 1) 0) with
    | some a, some b => decodeLoop t rest (u.set i ((a <<< 4) ||| b))
    | _, _ => (u, some .invalidFormat)

/-- The sixteen (output index, text offset) pairs of the `decodeCanonical`
loop: offsets 0,2,4,6 / 9,11 / 14,16 / 19,21 / 24,26,28,30,32,34. -/
def canonicalOffsets : List (Nat × Nat) :=
  [0, 2, 4, 6, 9, 11, 14, 16, 19, 21, 24, 26, 28, 30, 32, 34].enum

/-- The sixteen pairs of the `decodeHashLike` loop: output byte `i` comes from
text offsets `2 * i` and `2 * i + 1`. -/
def hashLikeOffsets : List (Nat × Nat) :=
  (List.range 16).map fun i => (i, 2 * i)

/-- Go `decodeCanonical`: hyphens required at offsets 8, 13, 18 and 23 of the
36-byte text (45 is the hyphen byte), then the sixteen fixed hex pairs. -/
def decodeCanonical (u t : List Nat) : List Nat × Option DecodeError :=
  if t.getD 8 0 = 45 ∧ t.getD 13 0 = 45 ∧ t.getD 18 0 = 45 ∧ t.getD 23 0 = 45 then
    decodeLoop t canonicalOffsets u
  else
    (u, some (.incorrectFormat t))

/-- Go `decodeHashLike`: sixteen consecutive hex pairs, no separators. -/
def decodeHashLike (u t : List Nat) : List Nat × Option DecodeError :=
  decodeLoop t hashLikeOffsets u

/-- The bytes of the literal `urn:uuid:` (Go `urnPrefix`). -/
def urnUuidBytes : List Nat := [117, 114, 110, 58, 117, 117, 105, 100, 58]

/-- Go `UnmarshalText`: dispatch on the input length. Lengths 32 and 36 fall
through to the final dispatch directly; 34 and 38 require `{` (123) first and
`}` (125) last, then strip the braces; 41 and 45 require the 9-byte
`urn:uuid:` leader, then strip it; any other length fails with the length
error. The final dispatch decodes length 36 as canonical, otherwise
hash-like. -/
def UnmarshalText (u text : List Nat) : List Nat × Option DecodeError :=
  if text.length = 32 ∨ text.length = 36 then
    if text.length = 36 then decodeCanonical u text else decodeHashLike u text
  else if text.length = 34 ∨ text.length = 38 then
    if text.getD 0 0 = 123 ∧ text.getD (text.length - 1) 0 = 125 then
      let t := (text.drop 1).take (text.length - 2)
      if t.length = 36 then decodeCanonical u t else decodeHashLike u t
    else
      (u, some (.incorrectFormat text))
  else if text.length = 41 ∨ text.length = 45 then
    if text.take 9 = urnUuidBytes then
      let t := text.drop 9
      if t.length = 36 then decodeCanonical u t else decodeHashLike u t
    else
      (u, some (.incorrectFormat (text.take 9)))
  else
    (u, some (.incorrectLength text.length text))

/-- Go `UnmarshalBinary`: the input must be exactly 16 bytes; on success
`copy(u[:], data)` makes the 16-byte receiver equal to `data`. -/
def UnmarshalBinary (u data : List Nat) : List Nat × Option DecodeError :=
  if data.length = Size then (data, none)
  else (u, some (.binaryLengthMismatch data.length))

/-- Go `FromBytes`: binary decode into a fresh zero UUID, returning the
(possibly partially written) value together with the error. -/
def FromBytes (input : List Nat) : List Nat × Option DecodeError :=
  UnmarshalBinary Nil input

/-- Go `FromBytesOrNil`: `Nil` on any error, the decoded value otherwise. -/
def FromBytesOrNil (input : List Nat) : List Nat :=
  match FromBytes input with
  | (u, none) => u
  | (_, some _) => Nil

/-- Go `FromString`: text decode into a fresh zero UUID, returning the
(possibly partially written) value together with the error. -/
def FromString (input : List Nat) : List Nat × Option DecodeError :=
  UnmarshalText Nil input

/-- Go `FromStringOrNil`: `Nil` on any error, the decoded value otherwise. -/
def FromStringOrNil (input : List Nat) : List Nat :=
  match FromString input with
  | (u, none) => u
  | (_, some _) => Nil

/-- Lowercase hex digit byte of a nibble, as produced by Go `hex.Encode`:
48 + n for n below 10, 87 + n (so 97 + n - 10) otherwise. -/
def hexDigit (n : Nat) : Nat := if n < 10 then 48 + n else 87 + n

/-- The two lowercase hex text bytes of one byte value. -/
def encodeByte (b : Nat) : List Nat := [hexDigit (b / 16), hexDigit (b % 16)]

/-- Go `hex.Encode` over a byte sequence. -/
def hexEncode (bs : List Nat) : List Nat := (bs.map encodeByte).flatten

/-- Go `encodeHex`: the canonical 36-byte text, hex groups of bytes 0-3, 4-5,
6-7, 8-9 and 10-15 joined by hyphens (45) at offsets 8, 13, 18 and 23.
`String` and `MarshalText` both return exactly these bytes. -/
def encodeHex (u : List Nat) : List Nat :=
  hexEncode (u.take 4) ++ [45] ++ hexEncode ((u.drop 4).take 2) ++ [45] ++
    hexEncode ((u.drop 6).take 2) ++ [45] ++ hexEncode ((u.drop 8).take 2) ++ [45] ++
    hexEncode (u.drop 10)

/-- Go `Version`: the high nibble of byte 6. -/
def Version (u : List Nat) : Nat := u.getD 6 0 >>> 4

/-- Go `Variant`: priority-ordered match on the top bits of byte 8. -/
def Variant (u : List Nat) : Nat :=
  if u.getD 8 0 >>> 7 = 0 then VariantNCS
  else if u.getD 8 0 >>> 6 = 2 then VariantRFC4122
  else if u.getD 8 0 >>> 5 = 6 then VariantMicrosoft
  else VariantFuture

/-- Go `SetVersion`: byte 6 becomes `(u[6] & 0x0f) | (v << 4)`; the shift is
byte arithmetic, hence the `% 256`. -/
def SetVersion (u : List Nat) (v : Nat) : List Nat :=
  u.set 6 ((u.getD 6 0 &&& 0x0f) ||| ((v <<< 4) % 256))

/-- Go `SetVariant`: byte 8 keeps its low bits and receives the discriminator
pattern of the variant; unrecognized values fall through to the Future arm. -/
def SetVariant (u : List Nat) (v : Nat) : List Nat :=
  if v = VariantNCS then u.set 8 ((u.getD 8 0 &&& (0xff >>> 1)) ||| (0x00 <<< 7))
  else if v = VariantRFC4122 then u.set 8 ((u.getD 8 0 &&& (0xff >>> 2)) ||| (0x02 <<< 6))
  else if v = VariantMicrosoft then u.set 8 ((u.getD 8 0 &&& (0xff >>> 3)) ||| (0x06 <<< 5))
  else u.set 8 ((u.getD 8 0 &&& (0xff >>> 3)) ||| (0x07 <<< 5))

/-- Go `binary.BigEndian.Uint32` of bytes i..i+3. -/
def be32 (u : List Nat) (i : Nat) : Nat :=
  (u.getD i 0 <<< 24) ||| (u.getD (i + 1) 0 <<< 16) ||| (u.getD (i + 2) 0 <<< 8) |||
    u.getD (i + 3) 0

/-- Go `binary.BigEndian.Uint16` of bytes i..i+1. -/
def be16 (u : List Nat) (i : Nat) : Nat :=
  (u.getD i 0 <<< 8) ||| u.getD (i + 1) 0

/-- The timestamp extraction error. Go formats
`"uuid: %s is version %d, not version E"` with the canonical string of the
UUID and its actual version; the expected version E is a literal in the
format string, recorded here as the third field. -/
inductive TimestampError
  | versionMismatch (s : List Nat) (actual : Nat) (expected : Nat)
deriving DecidableEq, Repr

/-- Go `TimestampFromV1`: requires version 1, then reassembles
`low + (mid << 32) + ((hi & 0xfff) << 48)` from big-endian fragments. -/
def TimestampFromV1 (u : List Nat) : Except TimestampError Nat :=
  if Version u ≠ 1 then .error (.versionMismatch (encodeHex u) (Version u) 1)
  else .ok (be32 u 0 + (be16 u 4 <<< 32) + ((be16 u 6 &&& 0xfff) <<< 48))

/-- Go `TimestampFromV6`: requires version 6, then reassembles
`(low & 0xfff) + (mid << 12) + (hi << 28)` from big-endian fragments. -/
def TimestampFromV6 (u : List Nat) : Except TimestampError Nat :=
  if Version u ≠ 6 then .error (.versionMismatch (encodeHex u) (Version u) 6)
  else .ok ((be16 u 6 &&& 0xfff) + (be16 u 4 <<< 12) + (be32 u 0 <<< 28))

/-- Go `Bytes`: the 16 stored bytes, verbatim. -/
def Bytes (u : List Nat) : List Nat := u

/-- Go `MarshalBinary`: returns `u.Bytes()`. -/
def MarshalBinary (u : List Nat) : List Nat := Bytes u

/-- The writes committed by a run of `decodeLoop`: the same pair-by-pair
stores, with no error and no store at an invalid pair. Restricted to the
valid prefix of the pair list it describes exactly the buffer `decodeLoop`
leaves behind when a later pair is invalid. -/
def applyPairs (t : List Nat) : List (Nat × Nat) → List Nat → List Nat
  | [], u => u
  | (i, x) :: rest, u =>
    match fromHexChar (t.getD x 0), fromHexChar (t.getD (x + 1) 0) with
    | some a, some b => applyPairs t rest (u.set i ((a <<< 4) ||| b))
    | _, _ => u

/-- The byte values of an ASCII string, as Go `[]byte(s)`. -/
def strBytes (s : String) : List Nat := s.toList.map Char.toNat

/-- A value inhabiting the Go `UUID` array type: exactly 16 byte values. -/
def IsUUID (u : List Nat) : Prop := u.length = 16 ∧ ∀ b ∈ u, b < 256

instance (u : List Nat) : Decidable (IsUUID u) := by
  unfold IsUUID; infer_instance

set_option maxRecDepth 1000000

/-- A list of length 16 is a sixteen-element literal. -/
theorem eq_list16 (u : List Nat) (hu : u.length = 16) :
    ∃ b0 b1 b2 b3 b4 b5 b6 b7 b8 b9 b10 b11 b12 b13 b14 b15,
      u = [b0, b1, b2, b3, b4, b5, b6, b7, b8, b9, b10, b11, b12, b13, b14, b15] :=
  match u, hu with
  | [b0, b1, b2, b3, b4, b5, b6, b7, b8, b9, b10, b11, b12, b13, b14, b15], _ =>
    ⟨b0, b1, b2, b3, b4, b5, b6, b7, b8, b9, b10, b11, b12, b13, b14, b15, rfl⟩

/-- The two hex text bytes of a byte value decode back to its nibbles, and
the nibbles reassemble to the byte. -/
theorem hexPair (b : Nat) (hb : b < 256) :
    fromHexChar (hexDigit (b / 16)) = some (b / 16) ∧
    fromHexChar (hexDigit (b % 16)) = some (b % 16) ∧
    ((b / 16) <<< 4) ||| (b % 16) = b := by
  have h : ∀ x : Fin 256, fromHexChar (hexDigit ((x : Nat) / 16)) = some ((x : Nat) / 16) ∧
      fromHexChar (hexDigit ((x : Nat) % 16)) = some ((x : Nat) % 16) ∧
      (((x : Nat) / 16) <<< 4) ||| ((x : Nat) % 16) = (x : Nat) := by decide
  exact h ⟨b, hb⟩

/-- A hex digit byte is a lowercase hex character: a decimal digit or one of
the bytes 97-102. -/
theorem hexDigit_range (x : Nat) (hx : x < 16) :
    (48 ≤ hexDigit x ∧ hexDigit x ≤ 57) ∨ (97 ≤ hexDigit x ∧ hexDigit x ≤ 102) := by
  unfold hexDigit; split <;> omega

/-- Byte 6 arithmetic of `SetVersion` against `Version` and the low nibble,
for a nibble-sized version value. -/
theorem nibbleFacts (b : Nat) (hb : b < 256) (v : Nat) (hv : v < 16) :
    (((b &&& 15) ||| ((v <<< 4) % 256)) >>> 4) = v ∧
    (((b &&& 15) ||| ((v <<< 4) % 256)) &&& 15) = b &&& 15 := by
  have h : ∀ x : Fin 256, ∀ w : Fin 16,
      ((((x : Nat) &&& 15) ||| (((w : Nat) <<< 4) % 256)) >>> 4) = (w : Nat) ∧
      ((((x : Nat) &&& 15) ||| (((w : Nat) <<< 4) % 256)) &&& 15) = (x : Nat) &&& 15 := by
    decide
  exact h ⟨b, hb⟩ ⟨v, hv⟩

/-- The four byte-8 patterns written by `SetVariant` against the tests made
by `Variant`, for every original byte value. -/
theorem variantBits (b : Nat) (hb : b < 256) :
    (((b &&& 127) ||| 0) >>> 7 = 0) ∧
    (¬((b &&& 63) ||| 128) >>> 7 = 0 ∧ ((b &&& 63) ||| 128) >>> 6 = 2) ∧
    (¬((b &&& 31) ||| 192) >>> 7 = 0 ∧ ¬((b &&& 31) ||| 192) >>> 6 = 2 ∧
      ((b &&& 31) ||| 192) >>> 5 = 6) ∧
    (¬((b &&& 31) ||| 224) >>> 7 = 0 ∧ ¬((b &&& 31) ||| 224) >>> 6 = 2 ∧
      ¬((b &&& 31) ||| 224) >>> 5 = 6) := by
  have h : ∀ x : Fin 256,
      ((((x : Nat) &&& 127) ||| 0) >>> 7 = 0) ∧
      (¬(((x : Nat) &&& 63) ||| 128) >>> 7 = 0 ∧ (((x : Nat) &&& 63) ||| 128) >>> 6 = 2) ∧
      (¬(((x : Nat) &&& 31) ||| 192) >>> 7 = 0 ∧ ¬(((x : Nat) &&& 31) ||| 192) >>> 6 = 2 ∧
        (((x : Nat) &&& 31) ||| 192) >>> 5 = 6) ∧
      (¬(((x : Nat) &&& 31) ||| 224) >>> 7 = 0 ∧ ¬(((x : Nat) &&& 31) ||| 224) >>> 6 = 2 ∧
        ¬(((x : Nat) &&& 31) ||| 224) >>> 5 = 6) := by decide
  exact h ⟨b, hb⟩

/-- Bitwise or is addition when the low operand fits below every set bit of
the high one. -/
theorem lor_eq_add_of_dvd (x y k : Nat) (hx : 2 ^ k ∣ x) (hy : y < 2 ^ k) :
    x ||| y = x + y := by
  obtain ⟨m, rfl⟩ := hx
  exact (Nat.mul_add_lt_is_or hy m).symm

/-- The big-endian 32-bit load as plain arithmetic on its four bytes. -/
theorem be32_arith (a b c d : Nat) (hb : b < 256) (hc : c < 256)
    (hd : d < 256) :
    (a <<< 24) ||| (b <<< 16) ||| (c <<< 8) ||| d = ((a * 256 + b) * 256 + c) * 256 + d := by
  rw [Nat.shiftLeft_eq, Nat.shiftLeft_eq, Nat.shiftLeft_eq]
  rw [lor_eq_add_of_dvd (a * 2 ^ 24) (b * 2 ^ 16) 24 ⟨a, by ring⟩ (by omega)]
  rw [lor_eq_add_of_dvd _ (c * 2 ^ 8) 16 ⟨a * 2 ^ 8 + b, by ring⟩ (by omega)]
  rw [lor_eq_add_of_dvd _ d 8 ⟨(a * 2 ^ 8 + b) * 2 ^ 8 + c, by ring⟩ (by omega)]
  ring

/-- The big-endian 16-bit load as plain arithmetic on its two bytes. -/
theorem be16_arith (a b : Nat) (hb : b < 256) :
    (a <<< 8) ||| b = a * 256 + b := by
  rw [Nat.shiftLeft_eq]
  rw [lor_eq_add_of_dvd (a * 2 ^ 8) b 8 ⟨a, by ring⟩ (by omega)]

/-- Unfolding step of `decodeLoop` when the first text byte of the pair is
not a hex digit. -/
theorem decodeLoop_cons_bad_left {t : List Nat} {i x : Nat} {rest : List (Nat × Nat)}
    {u : List Nat} (ha : fromHexChar (t.getD x 0) = none) :
    decodeLoop t ((i, x) :: rest) u = (u, some DecodeError.invalidFormat) := by
  simp only [decodeLoop, ha]

/-- Unfolding step of `decodeLoop` when the second text byte of the pair is
not a hex digit. -/
theorem decodeLoop_cons_bad_right {t : List Nat} {i x a : Nat} {rest : List (Nat × Nat)}
    {u : List Nat} (ha : fromHexChar (t.getD x 0) = some a)
    (hb : fromHexChar (t.getD (x + 1) 0) = none) :
    decodeLoop t ((i, x) :: rest) u = (u, some DecodeError.invalidFormat) := by
  simp only [decodeLoop, ha, hb]

/-- Unfolding step of `decodeLoop` on a valid hex pair. -/
theorem decodeLoop_cons_ok {t : List Nat} {i x a b : Nat} {rest : List (Nat × Nat)}
    {u : List Nat} (ha : fromHexChar (t.getD x 0) = some a)
    (hb : fromHexChar (t.getD (x + 1) 0) = some b) :
    decodeLoop t ((i, x) :: rest) u = decodeLoop t rest (u.set i ((a <<< 4) ||| b)) := by
  simp only [decodeLoop, ha, hb]

/-- Unfolding step of `applyPairs` on a valid hex pair. -/
theorem applyPairs_cons_ok {t : List Nat} {i x a b : Nat} {rest : List (Nat × Nat)}
    {u : List Nat} (ha : fromHexChar (t.getD x 0) = some a)
    (hb : fromHexChar (t.getD (x + 1) 0) = some b) :
    applyPairs t ((i, x) :: rest) u = applyPairs t rest (u.set i ((a <<< 4) ||| b)) := by
  simp only [applyPairs, ha, hb]

/-- When `decodeLoop` reports an error it is the generic invalid-format
error, the pair list splits into a fully-decoded prefix followed by the
first invalid pair, and the buffer holds exactly the writes of that
prefix. -/
theorem decodeLoop_error (t : List Nat) : ∀ pairs u e,
    (decodeLoop t pairs u).2 = some e →
    e = DecodeError.invalidFormat ∧
    ∃ done i x rest, pairs = done ++ (i, x) :: rest ∧
      (∀ p ∈ done, (fromHexChar (t.getD p.2 0)).isSome ∧
        (fromHexChar (t.getD (p.2 + 1) 0)).isSome) ∧
      (fromHexChar (t.getD x 0) = none ∨ fromHexChar (t.getD (x + 1) 0) = none) ∧
      (decodeLoop t pairs u).1 = applyPairs t done u := by
  intro pairs
  induction pairs with
  | nil => intro u e h; simp [decodeLoop] at h
  | cons p rest ih =>
    intro u e h
    obtain ⟨i, x⟩ := p
    cases ha : fromHexChar (t.getD x 0) with
    | none =>
      rw [decodeLoop_cons_bad_left ha] at h ⊢
      refine ⟨(Option.some_inj.mp h).symm, [], i, x, rest, rfl, by simp, Or.inl ha, ?_⟩
      simp [applyPairs]
    | some a =>
      cases hb : fromHexChar (t.getD (x + 1) 0) with
      | none =>
        rw [decodeLoop_cons_bad_right ha hb] at h ⊢
        refine ⟨(Option.some_inj.mp h).symm, [], i, x, rest, rfl, by simp, Or.inr hb, ?_⟩
        simp [applyPairs]
      | some b =>
        rw [decodeLoop_cons_ok ha hb] at h ⊢
        obtain ⟨he, done, i', x', rest', hsplit, hdone, hbad, hres⟩ := ih _ _ h
        refine ⟨he, (i, x) :: done, i', x', rest', by simp [hsplit], ?_, hbad, ?_⟩
        · intro q hq
          rcases List.mem_cons.mp hq with hq | hq
          · subst hq
            exact ⟨by rw [ha]; rfl, by rw [hb]; rfl⟩
          · exact hdone q hq
        · rw [applyPairs_cons_ok ha hb]
          exact hres

/-- The canonical text of a sixteen-byte literal, fully expanded. -/
theorem encodeHex_eq (b0 b1 b2 b3 b4 b5 b6 b7 b8 b9 b10 b11 b12 b13 b14 b15 : Nat) :
    encodeHex [b0, b1, b2, b3, b4, b5, b6, b7, b8, b9, b10, b11, b12, b13, b14, b15] =
      [hexDigit (b0 / 16), hexDigit (b0 % 16), hexDigit (b1 / 16), hexDigit (b1 % 16),
       hexDigit (b2 / 16), hexDigit (b2 % 16), hexDigit (b3 / 16), hexDigit (b3 % 16), 45,
       hexDigit (b4 / 16), hexDigit (b4 % 16), hexDigit (b5 / 16), hexDigit (b5 % 16), 45,
       hexDigit (b6 / 16), hexDigit (b6 % 16), hexDigit (b7 / 16), hexDigit (b7 % 16), 45,
       hexDigit (b8 / 16), hexDigit (b8 % 16), hexDigit (b9 / 16), hexDigit (b9 % 16), 45,
       hexDigit (b10 / 16), hexDigit (b10 % 16), hexDigit (b11 / 16), hexDigit (b11 % 16),
       hexDigit (b12 / 16), hexDigit (b12 % 16), hexDigit (b13 / 16), hexDigit (b13 % 16),
       hexDigit (b14 / 16), hexDigit (b14 % 16), hexDigit (b15 / 16), hexDigit (b15 % 16)] := by
  simp [encodeHex, hexEncode, encodeByte]

/-- Decoding the canonical text of any sixteen bytes into any sixteen-byte
receiver reproduces the encoded bytes. -/
theorem roundtrip_core (b0 b1 b2 b3 b4 b5 b6 b7 b8 b9 b10 b11 b12 b13 b14 b15
    c0 c1 c2 c3 c4 c5 c6 c7 c8 c9 c10 c11 c12 c13 c14 c15 : Nat)
    (h0 : b0 < 256) (h1 : b1 < 256) (h2 : b2 < 256) (h3 : b3 < 256)
    (h4 : b4 < 256) (h5 : b5 < 256) (h6 : b6 < 256) (h7 : b7 < 256)
    (h8 : b8 < 256) (h9 : b9 < 256) (h10 : b10 < 256) (h11 : b11 < 256)
    (h12 : b12 < 256) (h13 : b13 < 256) (h14 : b14 < 256) (h15 : b15 < 256) :
    UnmarshalText [c0, c1, c2, c3, c4, c5, c6, c7, c8, c9, c10, c11, c12, c13, c14, c15]
        (encodeHex [b0, b1, b2, b3, b4, b5, b6, b7, b8, b9, b10, b11, b12, b13, b14, b15]) =
      ([b0, b1, b2, b3, b4, b5, b6, b7, b8, b9, b10, b11, b12, b13, b14, b15], none) := by
  have hp0 := hexPair b0 h0
  have hp1 := hexPair b1 h1
  have hp2 := hexPair b2 h2
  have hp3 := hexPair b3 h3
  have hp4 := hexPair b4 h4
  have hp5 := hexPair b5 h5
  have hp6 := hexPair b6 h6
  have hp7 := hexPair b7 h7
  have hp8 := hexPair b8 h8
  have hp9 := hexPair b9 h9
  have hp10 := hexPair b10 h10
  have hp11 := hexPair b11 h11
  have hp12 := hexPair b12 h12
  have hp13 := hexPair b13 h13
  have hp14 := hexPair b14 h14
  have hp15 := hexPair b15 h15
  rw [encodeHex_eq]
  simp [UnmarshalText, decodeCanonical, canonicalOffsets, decodeLoop,
    hp0.1, hp0.2.1, hp0.2.2, hp1.1, hp1.2.1, hp1.2.2, hp2.1, hp2.2.1, hp2.2.2,
    hp3.1, hp3.2.1, hp3.2.2, hp4.1, hp4.2.1, hp4.2.2, hp5.1, hp5.2.1, hp5.2.2,
    hp6.1, hp6.2.1, hp6.2.2, hp7.1, hp7.2.1, hp7.2.2, hp8.1, hp8.2.1, hp8.2.2,
    hp9.1, hp9.2.1, hp9.2.2, hp10.1, hp10.2.1, hp10.2.2, hp11.1, hp11.2.1, hp11.2.2,
    hp12.1, hp12.2.1, hp12.2.2, hp13.1, hp13.2.1, hp13.2.2, hp14.1, hp14.2.1, hp14.2.2,
    hp15.1, hp15.2.1, hp15.2.2]

/-- C2: for every 16-byte UUID u, the text encoder used by String and
MarshalText produces exactly 36 bytes, lowercase hex with hyphens at offsets
8, 13, 18 and 23, and UnmarshalText on that text (into any 16-byte receiver)
succeeds and yields u again. -/
theorem text_encode_roundtrip (u w : List Nat) (hu : IsUUID u) (hw : w.length = 16) :
    (encodeHex u).length = 36 ∧
    ((encodeHex u).getD 8 0 = 45 ∧ (encodeHex u).getD 13 0 = 45 ∧
      (encodeHex u).getD 18 0 = 45 ∧ (encodeHex u).getD 23 0 = 45) ∧
    (∀ i, i < 36 → i ≠ 8 → i ≠ 13 → i ≠ 18 → i ≠ 23 →
      (48 ≤ (encodeHex u).getD i 0 ∧ (encodeHex u).getD i 0 ≤ 57) ∨
      (97 ≤ (encodeHex u).getD i 0 ∧ (encodeHex u).getD i 0 ≤ 102)) ∧
    UnmarshalText w (encodeHex u) = (u, none) := by
  obtain ⟨hlen, hbytes⟩ := hu
  obtain ⟨b0, b1, b2, b3, b4, b5, b6, b7, b8, b9, b10, b11, b12, b13, b14, b15, rfl⟩ :=
    eq_list16 u hlen
  obtain ⟨c0, c1, c2, c3, c4, c5, c6, c7, c8, c9, c10, c11, c12, c13, c14, c15, rfl⟩ :=
    eq_list16 w hw
  have h0 : b0 < 256 := hbytes _ (by simp)
  have h1 : b1 < 256 := hbytes _ (by simp)
  have h2 : b2 < 256 := hbytes _ (by simp)
  have h3 : b3 < 256 := hbytes _ (by simp)
  have h4 : b4 < 256 := hbytes _ (by simp)
  have h5 : b5 < 256 := hbytes _ (by simp)
  have h6 : b6 < 256 := hbytes _ (by simp)
  have h7 : b7 < 256 := hbytes _ (by simp)
  have h8 : b8 < 256 := hbytes _ (by simp)
  have h9 : b9 < 256 := hbytes _ (by simp)
  have h10 : b10 < 256 := hbytes _ (by simp)
  have h11 : b11 < 256 := hbytes _ (by simp)
  have h12 : b12 < 256 := hbytes _ (by simp)
  have h13 : b13 < 256 := hbytes _ (by simp)
  have h14 : b14 < 256 := hbytes _ (by simp)
  have h15 : b15 < 256 := hbytes _ (by simp)
  refine ⟨?_, ?_, ?_, ?_⟩
  · rw [encodeHex_eq]; rfl
  · rw [encodeHex_eq]; exact ⟨rfl, rfl, rfl, rfl⟩
  · intro i hi hi8 hi13 hi18 hi23
    rw [encodeHex_eq]
    interval_cases i <;>
      simp only [List.getD_cons_zero, List.getD_cons_succ] <;>
      first
        | exact absurd rfl hi8
        | exact absurd rfl hi13
        | exact absurd rfl hi18
        | exact absurd rfl hi23
        | exact hexDigit_range _ (by omega)
  · exact roundtrip_core b0 b1 b2 b3 b4 b5 b6 b7 b8 b9 b10 b11 b12 b13 b14 b15
      c0 c1 c2 c3 c4 c5 c6 c7 c8 c9 c10 c11 c12 c13 c14 c15
      h0 h1 h2 h3 h4 h5 h6 h7 h8 h9 h10 h11 h12 h13 h14 h15

/-- Witness for C2: the DNS namespace UUID, decoded into the zero
receiver. -/
theorem text_encode_roundtrip_witness :
    UnmarshalText Nil
        (encodeHex [107, 167, 184, 16, 157, 173, 17, 209, 128, 180, 0, 192, 79, 212, 48, 200]) =
      ([107, 167, 184, 16, 157, 173, 17, 209, 128, 180, 0, 192, 79, 212, 48, 200], none) :=
  (text_encode_roundtrip
    [107, 167, 184, 16, 157, 173, 17, 209, 128, 180, 0, 192, 79, 212, 48, 200]
    Nil (by decide) (by decide)).2.2.2

/-- C1 is false as stated: decoding a text whose third byte is the invalid
hex digit g reports an error, yet the first byte of the zero receiver has
already been overwritten with the decoded first pair. -/
theorem decode_untouched_counterexample :
    (UnmarshalText Nil (strBytes "6bg7b810-9dad-11d1-80b4-00c04fd430c8")).2 =
      some DecodeError.invalidFormat ∧
    (UnmarshalText Nil (strBytes "6bg7b810-9dad-11d1-80b4-00c04fd430c8")).1 ≠ Nil := by
  decide

/-- C1 (amended): every decode failure reports an error; the length, brace,
URN and hyphen checks fail with the receiver untouched, while an invalid
hex digit aborts the pair loop with exactly the writes of the pairs
preceding the first invalid pair committed to the receiver. -/
theorem decode_failure_buffer (u t : List Nat) :
    (¬(t.length = 32 ∨ t.length = 34 ∨ t.length = 36 ∨ t.length = 38 ∨
        t.length = 41 ∨ t.length = 45) →
      UnmarshalText u t = (u, some (.incorrectLength t.length t))) ∧
    ((t.length = 34 ∨ t.length = 38) →
      ¬(t.getD 0 0 = 123 ∧ t.getD (t.length - 1) 0 = 125) →
      UnmarshalText u t = (u, some (.incorrectFormat t))) ∧
    ((t.length = 41 ∨ t.length = 45) → t.take 9 ≠ urnUuidBytes →
      UnmarshalText u t = (u, some (.incorrectFormat (t.take 9)))) ∧
    (t.length = 36 →
      ¬(t.getD 8 0 = 45 ∧ t.getD 13 0 = 45 ∧ t.getD 18 0 = 45 ∧ t.getD 23 0 = 45) →
      UnmarshalText u t = (u, some (.incorrectFormat t))) ∧
    (∀ pairs e, (decodeLoop t pairs u).2 = some e →
      e = DecodeError.invalidFormat ∧
      ∃ done i x rest, pairs = done ++ (i, x) :: rest ∧
        (∀ p ∈ done, (fromHexChar (t.getD p.2 0)).isSome ∧
          (fromHexChar (t.getD (p.2 + 1) 0)).isSome) ∧
        (fromHexChar (t.getD x 0) = none ∨ fromHexChar (t.getD (x + 1) 0) = none) ∧
        (decodeLoop t pairs u).1 = applyPairs t done u) := by
  refine ⟨?_, ?_, ?_, ?_, fun pairs e h => decodeLoop_error t pairs u e h⟩
  · intro h
    push_neg at h
    obtain ⟨n32, n34, n36, n38, n41, n45⟩ := h
    unfold UnmarshalText
    rw [if_neg (by tauto), if_neg (by tauto), if_neg (by tauto)]
  · intro hl hbr
    have h1 : ¬(t.length = 32 ∨ t.length = 36) := by omega
    unfold UnmarshalText
    rw [if_neg h1, if_pos hl, if_neg hbr]
  · intro hl hurn
    have h1 : ¬(t.length = 32 ∨ t.length = 36) := by omega
    have h2 : ¬(t.length = 34 ∨ t.length = 38) := by omega
    unfold UnmarshalText
    rw [if_neg h1, if_neg h2, if_pos hl, if_neg hurn]
  · intro h36 hhy
    unfold UnmarshalText
    rw [if_pos (Or.inr h36), if_pos h36]
    unfold decodeCanonical
    rw [if_neg hhy]

/-- Witness for the amended C1 at a 3-byte input: length failure with the
receiver untouched. -/
theorem decode_failure_buffer_witness :
    UnmarshalText Nil (strBytes "6ba") =
      (Nil, some (.incorrectLength (strBytes "6ba").length (strBytes "6ba"))) :=
  (decode_failure_buffer Nil (strBytes "6ba")).1 (by decide)

/-- C3 is false as stated: two different 15-byte inputs produce identical
length-mismatch errors, so the error cannot carry the raw input; it carries
only the offending length. -/
theorem binary_error_counterexample :
    List.replicate 15 0 ≠ List.replicate 15 7 ∧
    (UnmarshalBinary Nil (List.replicate 15 0)).2 =
      (UnmarshalBinary Nil (List.replicate 15 7)).2 ∧
    (UnmarshalBinary Nil (List.replicate 15 0)).2 =
      some (DecodeError.binaryLengthMismatch 15) := by
  decide

/-- C3 (amended): binary decode succeeds exactly on 16-byte inputs, copying
them verbatim, so decoding the output of MarshalBinary is lossless; on any
other length it fails with a length-mismatch error that carries the
offending length (and only the length, not the raw input). -/
theorem binary_codec (u data : List Nat) (hu : u.length = 16) :
    ((UnmarshalBinary u data).2 = none ↔ data.length = 16) ∧
    (data.length = 16 → UnmarshalBinary u data = (data, none)) ∧
    (data.length ≠ 16 →
      UnmarshalBinary u data = (u, some (.binaryLengthMismatch data.length))) ∧
    UnmarshalBinary u (MarshalBinary u) = (u, none) := by
  refine ⟨?_, fun h => ?_, fun h => ?_, ?_⟩
  · by_cases hd : data.length = 16 <;> simp [UnmarshalBinary, Size, hd]
  · simp [UnmarshalBinary, Size, h]
  · simp [UnmarshalBinary, Size, h]
  · simp [UnmarshalBinary, MarshalBinary, Bytes, Size, hu]

/-- Witness for the amended C3 at a 15-byte input and a 16-byte receiver. -/
theorem binary_codec_witness :
    UnmarshalBinary Nil (List.replicate 15 3) =
      (Nil, some (.binaryLengthMismatch (List.replicate 15 3).length)) :=
  (binary_codec Nil (List.replicate 15 3) (by decide)).2.2.1 (by decide)

/-- A 32-byte text goes to the hash-like decoder. -/
theorem unmarshalText_len32 (u t : List Nat) (h32 : t.length = 32) :
    UnmarshalText u t = decodeHashLike u t := by
  unfold UnmarshalText
  rw [if_pos (Or.inl h32), if_neg (by omega)]

/-- A 36-byte text goes to the canonical decoder. -/
theorem unmarshalText_len36 (u t : List Nat) (h36 : t.length = 36) :
    UnmarshalText u t = decodeCanonical u t := by
  unfold UnmarshalText
  rw [if_pos (Or.inr h36), if_pos h36]

/-- C4: UnmarshalText dispatches purely on the input length: 32 decodes
hash-like, 36 canonical; 34 and 38 need braces and re-dispatch the stripped
text; 41 and 45 need the urn:uuid: leader and re-dispatch the stripped
text; every other length fails with the length error naming the length and
the original input. -/
theorem unmarshal_dispatch (u t : List Nat) :
    (t.length = 32 → UnmarshalText u t = decodeHashLike u t) ∧
    (t.length = 36 → UnmarshalText u t = decodeCanonical u t) ∧
    ((t.length = 34 ∨ t.length = 38) →
      (t.getD 0 0 = 123 ∧ t.getD (t.length - 1) 0 = 125 →
        UnmarshalText u t = UnmarshalText u ((t.drop 1).take (t.length - 2))) ∧
      (¬(t.getD 0 0 = 123 ∧ t.getD (t.length - 1) 0 = 125) →
        UnmarshalText u t = (u, some (.incorrectFormat t)))) ∧
    ((t.length = 41 ∨ t.length = 45) →
      (t.take 9 = urnUuidBytes → UnmarshalText u t = UnmarshalText u (t.drop 9)) ∧
      (t.take 9 ≠ urnUuidBytes →
        UnmarshalText u t = (u, some (.incorrectFormat (t.take 9))))) ∧
    (¬(t.length = 32 ∨ t.length = 34 ∨ t.length = 36 ∨ t.length = 38 ∨
        t.length = 41 ∨ t.length = 45) →
      UnmarshalText u t = (u, some (.incorrectLength t.length t))) := by
  refine ⟨?_, ?_, fun hl => ⟨?_, ?_⟩, fun hl => ⟨?_, ?_⟩, ?_⟩
  · exact fun h32 => unmarshalText_len32 u t h32
  · exact fun h36 => unmarshalText_len36 u t h36
  · intro hbr
    have h1 : ¬(t.length = 32 ∨ t.length = 36) := by omega
    have e : UnmarshalText u t =
        (if ((t.drop 1).take (t.length - 2)).length = 36 then
          decodeCanonical u ((t.drop 1).take (t.length - 2))
        else decodeHashLike u ((t.drop 1).take (t.length - 2))) := by
      unfold UnmarshalText
      rw [if_neg h1, if_pos hl, if_pos hbr]
    rcases hl with h34 | h38
    · have hlen : ((t.drop 1).take (t.length - 2)).length = 32 := by
        simp [List.length_take, List.length_drop, h34]
      rw [e, if_neg (by omega), unmarshalText_len32 u _ hlen]
    · have hlen : ((t.drop 1).take (t.length - 2)).length = 36 := by
        simp [List.length_take, List.length_drop, h38]
      rw [e, if_pos hlen, unmarshalText_len36 u _ hlen]
  · intro hbr
    have h1 : ¬(t.length = 32 ∨ t.length = 36) := by omega
    unfold UnmarshalText
    rw [if_neg h1, if_pos hl, if_neg hbr]
  · intro hurn
    rcases hl with h41 | h45
    · simp [UnmarshalText, h41, hurn]
    · simp [UnmarshalText, h45, hurn]
  · intro hurn
    have h1 : ¬(t.length = 32 ∨ t.length = 36) := by omega
    have h2 : ¬(t.length = 34 ∨ t.length = 38) := by omega
    unfold UnmarshalText
    rw [if_neg h1, if_neg h2, if_pos hl, if_neg hurn]
  · intro h
    push_neg at h
    obtain ⟨n32, n34, n36, n38, n41, n45⟩ := h
    unfold UnmarshalText
    rw [if_neg (by tauto), if_neg (by tauto), if_neg (by tauto)]

/-- Witness for C4: a braced canonical input re-dispatches to the stripped
canonical text. -/
theorem unmarshal_dispatch_witness :
    UnmarshalText Nil (strBytes "\x7b6ba7b810-9dad-11d1-80b4-00c04fd430c8\x7d") =
      UnmarshalText Nil
        (((strBytes "\x7b6ba7b810-9dad-11d1-80b4-00c04fd430c8\x7d").drop 1).take
          ((strBytes "\x7b6ba7b810-9dad-11d1-80b4-00c04fd430c8\x7d").length - 2)) :=
  ((unmarshal_dispatch Nil
    (strBytes "\x7b6ba7b810-9dad-11d1-80b4-00c04fd430c8\x7d")).2.2.1
    (by decide)).1 (by decide)

/-- C5: the five supported spellings of the DNS namespace UUID all decode
successfully to the identical 16 bytes. -/
theorem format_equivalence :
    FromString (strBytes "6ba7b810-9dad-11d1-80b4-00c04fd430c8") =
      ([107, 167, 184, 16, 157, 173, 17, 209, 128, 180, 0, 192, 79, 212, 48, 200], none) ∧
    FromString (strBytes "\x7b6ba7b810-9dad-11d1-80b4-00c04fd430c8\x7d") =
      ([107, 167, 184, 16, 157, 173, 17, 209, 128, 180, 0, 192, 79, 212, 48, 200], none) ∧
    FromString (strBytes "6ba7b8109dad11d180b400c04fd430c8") =
      ([107, 167, 184, 16, 157, 173, 17, 209, 128, 180, 0, 192, 79, 212, 48, 200], none) ∧
    FromString (strBytes "\x7b6ba7b8109dad11d180b400c04fd430c8\x7d") =
      ([107, 167, 184, 16, 157, 173, 17, 209, 128, 180, 0, 192, 79, 212, 48, 200], none) ∧
    FromString (strBytes "urn:uuid:6ba7b810-9dad-11d1-80b4-00c04fd430c8") =
      ([107, 167, 184, 16, 157, 173, 17, 209, 128, 180, 0, 192, 79, 212, 48, 200], none) := by
  decide

/-- Variant as the priority match on a known byte-8 value. -/
theorem Variant_eq (w : List Nat) (b : Nat) (hb : w.getD 8 0 = b) :
    Variant w =
      (if b >>> 7 = 0 then VariantNCS
       else if b >>> 6 = 2 then VariantRFC4122
       else if b >>> 5 = 6 then VariantMicrosoft
       else VariantFuture) := by
  unfold Variant; rw [hb]

/-- C6: SetVersion and SetVariant touch disjoint bytes, so they commute;
afterwards Version reports the set version and Variant reports the set
variant, with every tag outside NCS, RFC4122 and Microsoft landing on
Future. -/
theorem version_variant_independence (u : List Nat) (hu : IsUUID u) (v x : Nat)
    (hv : v < 16) (hx : x < 256) :
    SetVariant (SetVersion u v) x = SetVersion (SetVariant u x) v ∧
    Version (SetVariant (SetVersion u v) x) = v ∧
    Variant (SetVariant (SetVersion u v) x) =
      (if x = VariantNCS ∨ x = VariantRFC4122 ∨ x = VariantMicrosoft then x
       else VariantFuture) := by
  obtain ⟨hlen, hbytes⟩ := hu
  obtain ⟨b0, b1, b2, b3, b4, b5, b6, b7, b8, b9, b10, b11, b12, b13, b14, b15, rfl⟩ :=
    eq_list16 u hlen
  have h6 : b6 < 256 := hbytes _ (by simp)
  have h8 : b8 < 256 := hbytes _ (by simp)
  have hnib := nibbleFacts b6 h6 v hv
  have hvb := variantBits b8 h8
  by_cases hx0 : x = VariantNCS
  · subst hx0
    refine ⟨rfl, hnib.1, ?_⟩
    have hw : (SetVariant
        (SetVersion [b0, b1, b2, b3, b4, b5, b6, b7, b8, b9, b10, b11, b12, b13, b14, b15] v)
        VariantNCS).getD 8 0 = (b8 &&& 127) ||| 0 := rfl
    rw [Variant_eq _ _ hw, hvb.1]
    simp [VariantNCS]
  · by_cases hx1 : x = VariantRFC4122
    · subst hx1
      refine ⟨rfl, hnib.1, ?_⟩
      have hw : (SetVariant
          (SetVersion [b0, b1, b2, b3, b4, b5, b6, b7, b8, b9, b10, b11, b12, b13, b14, b15] v)
          VariantRFC4122).getD 8 0 = (b8 &&& 63) ||| 128 := rfl
      rw [Variant_eq _ _ hw, if_neg hvb.2.1.1, hvb.2.1.2]
      simp [VariantNCS, VariantRFC4122]
    · by_cases hx2 : x = VariantMicrosoft
      · subst hx2
        refine ⟨rfl, hnib.1, ?_⟩
        have hw : (SetVariant
            (SetVersion [b0, b1, b2, b3, b4, b5, b6, b7, b8, b9, b10, b11, b12, b13, b14, b15] v)
            VariantMicrosoft).getD 8 0 = (b8 &&& 31) ||| 192 := rfl
        rw [Variant_eq _ _ hw, if_neg hvb.2.2.1.1, if_neg hvb.2.2.1.2.1, hvb.2.2.1.2.2]
        simp [VariantNCS, VariantRFC4122, VariantMicrosoft]
      · have hw : SetVariant
            (SetVersion [b0, b1, b2, b3, b4, b5, b6, b7, b8, b9, b10, b11, b12, b13, b14, b15] v)
            x =
            (SetVersion [b0, b1, b2, b3, b4, b5, b6, b7, b8, b9, b10, b11, b12, b13, b14, b15]
              v).set 8 ((b8 &&& 31) ||| 224) := by
          unfold SetVariant
          rw [if_neg hx0, if_neg hx1, if_neg hx2]
          rfl
        have hw2 : SetVariant
            [b0, b1, b2, b3, b4, b5, b6, b7, b8, b9, b10, b11, b12, b13, b14, b15] x =
            [b0, b1, b2, b3, b4, b5, b6, b7, b8, b9, b10, b11, b12, b13, b14, b15].set 8
              ((b8 &&& 31) ||| 224) := by
          unfold SetVariant
          rw [if_neg hx0, if_neg hx1, if_neg hx2]
          rfl
        refine ⟨?_, ?_, ?_⟩
        · rw [hw, hw2]; rfl
        · rw [hw]; exact hnib.1
        · have hw8 : ((SetVersion
              [b0, b1, b2, b3, b4, b5, b6, b7, b8, b9, b10, b11, b12, b13, b14, b15]
              v).set 8 ((b8 &&& 31) ||| 224)).getD 8 0 = (b8 &&& 31) ||| 224 := rfl
          rw [hw, Variant_eq _ _ hw8, if_neg hvb.2.2.2.1, if_neg hvb.2.2.2.2.1,
            if_neg hvb.2.2.2.2.2]
          simp [hx0, hx1, hx2]

/-- Witness for C6 at the DNS namespace UUID with version 4 and the
Microsoft variant tag. -/
theorem version_variant_independence_witness :
    SetVariant
        (SetVersion [107, 167, 184, 16, 157, 173, 17, 209, 128, 180, 0, 192, 79, 212, 48, 200] 4)
        2 =
      SetVersion
        (SetVariant [107, 167, 184, 16, 157, 173, 17, 209, 128, 180, 0, 192, 79, 212, 48, 200] 2)
        4 ∧
    Version (SetVariant
      (SetVersion [107, 167, 184, 16, 157, 173, 17, 209, 128, 180, 0, 192, 79, 212, 48, 200] 4)
      2) = 4 ∧
    Variant (SetVariant
      (SetVersion [107, 167, 184, 16, 157, 173, 17, 209, 128, 180, 0, 192, 79, 212, 48, 200] 4)
      2) =
      (if (2 : Nat) = VariantNCS ∨ (2 : Nat) = VariantRFC4122 ∨ (2 : Nat) = VariantMicrosoft
       then 2 else VariantFuture) :=
  version_variant_independence
    [107, 167, 184, 16, 157, 173, 17, 209, 128, 180, 0, 192, 79, 212, 48, 200]
    (by decide) 4 2 (by decide) (by decide)

/-- C7: TimestampFromV1 fails with the version-mismatch error carrying the
string form and the actual version exactly when the version is not 1;
otherwise it returns time_low + (time_mid shifted by 32) + (masked time_hi
shifted by 48) from the big-endian fragments, and on the parsed DNS
namespace UUID it returns the fixed tick count. -/
theorem timestampV1 (u : List Nat) (hu : IsUUID u) :
    (Version u ≠ 1 →
      TimestampFromV1 u = .error (.versionMismatch (encodeHex u) (Version u) 1)) ∧
    (Version u = 1 → TimestampFromV1 u =
      .ok ((((u.getD 0 0 * 256 + u.getD 1 0) * 256 + u.getD 2 0) * 256 + u.getD 3 0 +
        (u.getD 4 0 * 256 + u.getD 5 0) * 2 ^ 32 +
        ((u.getD 6 0 * 256 + u.getD 7 0) % 2 ^ 12) * 2 ^ 48))) ∧
    TimestampFromV1 (FromString (strBytes "6ba7b810-9dad-11d1-80b4-00c04fd430c8")).1 =
      .ok 131059232331511824 := by
  obtain ⟨hlen, hbytes⟩ := hu
  obtain ⟨b0, b1, b2, b3, b4, b5, b6, b7, b8, b9, b10, b11, b12, b13, b14, b15, rfl⟩ :=
    eq_list16 u hlen
  have h1 : b1 < 256 := hbytes _ (by simp)
  have h2 : b2 < 256 := hbytes _ (by simp)
  have h3 : b3 < 256 := hbytes _ (by simp)
  have h5 : b5 < 256 := hbytes _ (by simp)
  have h7 : b7 < 256 := hbytes _ (by simp)
  refine ⟨?_, ?_, by rfl⟩
  · intro h
    unfold TimestampFromV1
    rw [if_pos h]
  · intro h
    unfold TimestampFromV1
    rw [if_neg (not_not_intro h)]
    have e32 : be32 [b0, b1, b2, b3, b4, b5, b6, b7, b8, b9, b10, b11, b12, b13, b14, b15] 0 =
        ((b0 * 256 + b1) * 256 + b2) * 256 + b3 := by
      show (b0 <<< 24) ||| (b1 <<< 16) ||| (b2 <<< 8) ||| b3 = _
      exact be32_arith b0 b1 b2 b3 h1 h2 h3
    have e16a : be16 [b0, b1, b2, b3, b4, b5, b6, b7, b8, b9, b10, b11, b12, b13, b14, b15] 4 =
        b4 * 256 + b5 := by
      show (b4 <<< 8) ||| b5 = _
      exact be16_arith b4 b5 h5
    have e16b : be16 [b0, b1, b2, b3, b4, b5, b6, b7, b8, b9, b10, b11, b12, b13, b14, b15] 6 =
        b6 * 256 + b7 := by
      show (b6 <<< 8) ||| b7 = _
      exact be16_arith b6 b7 h7
    have emask : (b6 * 256 + b7) &&& 4095 = (b6 * 256 + b7) % 2 ^ 12 := by
      have e := Nat.and_pow_two_sub_one_eq_mod (b6 * 256 + b7) 12
      norm_num at e
      norm_num
      exact e
    rw [e32, e16a, e16b, Nat.shiftLeft_eq, Nat.shiftLeft_eq, emask]
    rfl

/-- Witness for C7 at the DNS namespace bytes, a version-1 value. -/
theorem timestampV1_witness :
    TimestampFromV1 [107, 167, 184, 16, 157, 173, 17, 209, 128, 180, 0, 192, 79, 212, 48, 200] =
      .ok ((((107 * 256 + 167) * 256 + 184) * 256 + 16 + (157 * 256 + 173) * 2 ^ 32 +
        ((17 * 256 + 209) % 2 ^ 12) * 2 ^ 48)) :=
  (timestampV1 [107, 167, 184, 16, 157, 173, 17, 209, 128, 180, 0, 192, 79, 212, 48, 200]
    (by decide)).2.1 (by decide)

/-- C8: TimestampFromV6 fails with the version-mismatch error carrying the
string form and the actual version exactly when the version is not 6;
otherwise it returns masked time_low + (time_mid shifted by 12) + (time_hi
shifted by 28) from the big-endian fragments. -/
theorem timestampV6 (u : List Nat) (hu : IsUUID u) :
    (Version u ≠ 6 →
      TimestampFromV6 u = .error (.versionMismatch (encodeHex u) (Version u) 6)) ∧
    (Version u = 6 → TimestampFromV6 u =
      .ok ((u.getD 6 0 * 256 + u.getD 7 0) % 2 ^ 12 +
        (u.getD 4 0 * 256 + u.getD 5 0) * 2 ^ 12 +
        (((u.getD 0 0 * 256 + u.getD 1 0) * 256 + u.getD 2 0) * 256 + u.getD 3 0) * 2 ^ 28)) := by
  obtain ⟨hlen, hbytes⟩ := hu
  obtain ⟨b0, b1, b2, b3, b4, b5, b6, b7, b8, b9, b10, b11, b12, b13, b14, b15, rfl⟩ :=
    eq_list16 u hlen
  have h1 : b1 < 256 := hbytes _ (by simp)
  have h2 : b2 < 256 := hbytes _ (by simp)
  have h3 : b3 < 256 := hbytes _ (by simp)
  have h5 : b5 < 256 := hbytes _ (by simp)
  have h7 : b7 < 256 := hbytes _ (by simp)
  refine ⟨?_, ?_⟩
  · intro h
    unfold TimestampFromV6
    rw [if_pos h]
  · intro h
    unfold TimestampFromV6
    rw [if_neg (not_not_intro h)]
    have e32 : be32 [b0, b1, b2, b3, b4, b5, b6, b7, b8, b9, b10, b11, b12, b13, b14, b15] 0 =
        ((b0 * 256 + b1) * 256 + b2) * 256 + b3 := by
      show (b0 <<< 24) ||| (b1 <<< 16) ||| (b2 <<< 8) ||| b3 = _
      exact be32_arith b0 b1 b2 b3 h1 h2 h3
    have e16a : be16 [b0, b1, b2, b3, b4, b5, b6, b7, b8, b9, b10, b11, b12, b13, b14, b15] 4 =
        b4 * 256 + b5 := by
      show (b4 <<< 8) ||| b5 = _
      exact be16_arith b4 b5 h5
    have e16b : be16 [b0, b1, b2, b3, b4, b5, b6, b7, b8, b9, b10, b11, b12, b13, b14, b15] 6 =
        b6 * 256 + b7 := by
      show (b6 <<< 8) ||| b7 = _
      exact be16_arith b6 b7 h7
    have emask : (b6 * 256 + b7) &&& 4095 = (b6 * 256 + b7) % 2 ^ 12 := by
      have e := Nat.and_pow_two_sub_one_eq_mod (b6 * 256 + b7) 12
      norm_num at e
      norm_num
      exact e
    rw [e32, e16a, e16b, Nat.shiftLeft_eq, Nat.shiftLeft_eq, emask]
    rfl

/-- Witness for C8 at a concrete version-6 value. -/
theorem timestampV6_witness :
    TimestampFromV6 [1, 2, 3, 4, 5, 6, 96, 7, 8, 9, 10, 11, 12, 13, 14, 15] =
      .ok ((96 * 256 + 7) % 2 ^ 12 + (5 * 256 + 6) * 2 ^ 12 +
        (((1 * 256 + 2) * 256 + 3) * 256 + 4) * 2 ^ 28) :=
  (timestampV6 [1, 2, 3, 4, 5, 6, 96, 7, 8, 9, 10, 11, 12, 13, 14, 15]
    (by decide)).2 (by decide)

/-- C9: the OrNil wrappers return Nil exactly on the inputs where the
primary entry points fail, and return the decoded value when they
succeed. -/
theorem orNil_wrappers (s b : List Nat) :
    ((FromString s).2 = none → FromStringOrNil s = (FromString s).1) ∧
    (∀ e, (FromString s).2 = some e → FromStringOrNil s = Nil) ∧
    ((FromBytes b).2 = none → FromBytesOrNil b = (FromBytes b).1) ∧
    (∀ e, (FromBytes b).2 = some e → FromBytesOrNil b = Nil) := by
  refine ⟨?_, ?_, ?_, ?_⟩
  · intro h
    unfold FromStringOrNil
    rcases hfs : FromString s with ⟨v, err⟩
    rw [hfs] at h
    cases err with
    | none => simp [hfs]
    | some e => simp at h
  · intro e h
    unfold FromStringOrNil
    rcases hfs : FromString s with ⟨v, err⟩
    rw [hfs] at h
    cases err with
    | none => simp at h
    | some e2 => simp [hfs]
  · intro h
    unfold FromBytesOrNil
    rcases hfb : FromBytes b with ⟨v, err⟩
    rw [hfb] at h
    cases err with
    | none => simp [hfb]
    | some e => simp at h
  · intro e h
    unfold FromBytesOrNil
    rcases hfb : FromBytes b with ⟨v, err⟩
    rw [hfb] at h
    cases err with
    | none => simp at h
    | some e2 => simp [hfb]

/-- Witness for C9: a failing 3-byte text gives Nil, and a successful
16-byte binary input gives the decoded value. -/
theorem orNil_wrappers_witness :
    FromStringOrNil (strBytes "6ba") = Nil ∧
    FromBytesOrNil (List.replicate 16 9) = (FromBytes (List.replicate 16 9)).1 :=
  ⟨(orNil_wrappers (strBytes "6ba") []).2.1
      (DecodeError.incorrectLength 3 (strBytes "6ba")) (by decide),
    (orNil_wrappers [] (List.replicate 16 9)).2.2.1 (by decide)⟩

/-- C10: SetVersion with any byte v replaces byte 6 by the masked low nibble
joined with the shifted version reduced mod 256, so Version afterwards
reports v mod 16, the low nibble of byte 6 survives, and the other fifteen
bytes are unchanged. -/
theorem setVersion_any_byte (u : List Nat) (hu : IsUUID u) (v : Nat) (hv : v < 256) :
    (SetVersion u v).getD 6 0 = ((u.getD 6 0 &&& 15) ||| ((v <<< 4) % 256)) ∧
    Version (SetVersion u v) = v % 16 ∧
    ((SetVersion u v).getD 6 0 &&& 15) = (u.getD 6 0 &&& 15) ∧
    (∀ i, i < 16 → i ≠ 6 → (SetVersion u v).getD i 0 = u.getD i 0) := by
  obtain ⟨hlen, hbytes⟩ := hu
  obtain ⟨b0, b1, b2, b3, b4, b5, b6, b7, b8, b9, b10, b11, b12, b13, b14, b15, rfl⟩ :=
    eq_list16 u hlen
  have h6 : b6 < 256 := hbytes _ (by simp)
  have hmod : (v <<< 4) % 256 = ((v % 16) <<< 4) % 256 := by
    rw [Nat.shiftLeft_eq, Nat.shiftLeft_eq]
    omega
  have hnib := nibbleFacts b6 h6 (v % 16) (Nat.mod_lt _ (by omega))
  refine ⟨rfl, ?_, ?_, ?_⟩
  · show ((b6 &&& 15) ||| ((v <<< 4) % 256)) >>> 4 = v % 16
    rw [hmod]
    exact hnib.1
  · show (((b6 &&& 15) ||| ((v <<< 4) % 256)) &&& 15) = b6 &&& 15
    rw [hmod]
    exact hnib.2
  · intro i hi hne
    interval_cases i <;> first
      | exact absurd rfl hne
      | rfl

/-- Witness for C10 with the out-of-range version byte 200. -/
theorem setVersion_any_byte_witness :
    Version
        (SetVersion [107, 167, 184, 16, 157, 173, 17, 209, 128, 180, 0, 192, 79, 212, 48, 200]
          200) = 200 % 16 :=
  (setVersion_any_byte [107, 167, 184, 16, 157, 173, 17, 209, 128, 180, 0, 192, 79, 212, 48, 200]
    (by decide) 200 (by decide)).2.1

end UUIDModel
